import Mathlib

/-!
# Verification of the video-upload backend (`src/main.py`, `src/schemas.py`)

Shallow embedding of the FastAPI video-upload service.  Pure string / path
manipulation from `upload_video` is embedded as Lean functions on `List Char`
(Python `str` values are modelled as Lean `String`s; characters are modelled
in the ASCII range — Python's `str.isalnum` is Unicode-aware but every claim
and counterexample below involves ASCII characters only).  The handlers are
embedded as state-passing functions over an explicit server state holding the
blob-store directory and the metadata collection.
-/

namespace VideoBackend

/-- Model of Python `str.startswith`: the second string is a prefix of the
first (src/main.py line 95). -/
def pyStartsWith (s pre : String) : Bool := pre.data.isPrefixOf s.data

/-- Model of Python `str.isalnum` restricted to the ASCII range
(`[0-9A-Za-z]`); used by the filename-sanitising comprehension in
`upload_video` (src/main.py line 102). -/
def pyIsAlnum (c : Char) : Bool := c.isAlpha || c.isDigit

/-- The character filter of src/main.py line 102:
`c.isalnum() or c in ("-", "_")`. -/
def isKeepChar (c : Char) : Bool := pyIsAlnum c || c == '-' || c == '_'

/-- Split a POSIX path at its last `/`: returns
`(everything up to and including the last slash, the final component)`.
Model of the slash handling shared by `os.path.basename` and
`os.path.splitext` (posixpath). -/
def splitLastSlash : List Char → List Char × List Char
  | [] => ([], [])
  | c :: cs =>
    if cs.contains '/' then
      let p := splitLastSlash cs
      (c :: p.1, p.2)
    else if c == '/' then ([c], cs)
    else ([], c :: cs)

/-- Model of `os.path.basename` (posixpath): the part after the last `/`. -/
def pyBasename (f : String) : List Char := (splitLastSlash f.data).2

/-- Split a path-free name at its LAST dot, if any:
`some (before, from-the-dot-on)`. -/
def splitLastDot : List Char → Option (List Char × List Char)
  | [] => none
  | c :: cs =>
    match splitLastDot cs with
    | some p => some (c :: p.1, p.2)
    | none => if c == '.' then some ([], '.' :: cs) else none

/-- Model of `os.path.splitext` applied to a name with no `/` in it
(posixpath): leading dots never start an extension, otherwise split at the
last dot. -/
def pySplitextName (name : List Char) : List Char × List Char :=
  let lead := name.takeWhile (fun c => c == '.')
  let rest := name.dropWhile (fun c => c == '.')
  match splitLastDot rest with
  | some p => (lead ++ p.1, p.2)
  | none => (name, [])

/-- Model of `os.path.splitext` on a full path (posixpath): the extension is
taken within the final path component only. -/
def pySplitext (f : String) : List Char × List Char :=
  let p := splitLastSlash f.data
  let q := pySplitextName p.2
  (p.1 ++ q.1, q.2)

/-- src/main.py line 99:
`base_name = os.path.splitext(os.path.basename(file.filename))[0]`. -/
def base_name (f : String) : List Char := (pySplitextName (pyBasename f)).1

/-- src/main.py line 100: `ext = os.path.splitext(file.filename)[1]`. -/
def extPart (f : String) : List Char := (pySplitext f).2

/-- src/main.py line 102:
`safe_base = "".join(c for c in base_name if c.isalnum() or c in ("-", "_"))[:50]`. -/
def safe_base (f : String) : List Char := ((base_name f).filter isKeepChar).take 50

/-- A wall-clock instant at microsecond resolution, the granularity of
`datetime.utcnow()`. -/
structure Timestamp where
  year : Nat
  month : Nat
  day : Nat
  hour : Nat
  minute : Nat
  second : Nat
  microsecond : Nat
deriving DecidableEq, Repr, Inhabited

/-- Fixed-width zero-padded decimal rendering: the semantics of each strftime
field (`%Y` pads to 4, `%m`/`%d`/`%H`/`%M`/`%S` to 2, `%f` to 6); most
significant digit first. -/
def padNum : Nat → Nat → List Char
  | 0, _ => []
  | w + 1, n => padNum w (n / 10) ++ [Nat.digitChar (n % 10)]

/-- src/main.py line 101:
`timestamp = datetime.utcnow().strftime("%Y%m%d%H%M%S%f")`. -/
def formatTimestamp (t : Timestamp) : List Char :=
  padNum 4 t.year ++ padNum 2 t.month ++ padNum 2 t.day ++
  padNum 2 t.hour ++ padNum 2 t.minute ++ padNum 2 t.second ++
  padNum 6 t.microsecond

/-- src/main.py line 103:
`final_name = f"{safe_base or 'video'}_{timestamp}{ext}"` (an empty
`safe_base` is falsy, so `'video'` is substituted). -/
def final_name_list (f : String) (t : Timestamp) : List Char :=
  (if (safe_base f).isEmpty then ("video" : String).data else safe_base f) ++
    ('_' :: formatTimestamp t) ++ extPart f

/-- The final stored filename as a string. -/
def final_name (f : String) (t : Timestamp) : String :=
  String.mk (final_name_list f t)

/-- Model of `datetime.isoformat()`: `YYYY-MM-DDTHH:MM:SS[.ffffff]`, the
fractional part omitted when the microsecond field is zero. -/
def isoTimestamp (t : Timestamp) : String :=
  String.mk (padNum 4 t.year ++ '-' :: padNum 2 t.month ++ '-' :: padNum 2 t.day ++
    'T' :: padNum 2 t.hour ++ ':' :: padNum 2 t.minute ++ ':' :: padNum 2 t.second ++
    (if t.microsecond == 0 then [] else '.' :: padNum 6 t.microsecond))

/-- A value stored under a document's `created_at` key.  The store writes a
datetime (`dt`), but a record may also hold a value of any other shape
(`other`), which — like a Python string or number — has no `isoformat`
attribute. -/
inductive StoredTime where
  | dt (t : Timestamp)
  | other (s : String)
deriving DecidableEq, Repr, Inhabited

/-- src/main.py line 149:
`created_at.isoformat() if hasattr(created_at, "isoformat") else None` —
a missing key gives `None`, a non-datetime value fails the `hasattr` check,
and only a datetime is rendered. -/
def renderCreatedAt : Option StoredTime → Option String
  | some (StoredTime.dt t) => some (isoTimestamp t)
  | some (StoredTime.other _) => none
  | none => none

/-- The `Video` Pydantic model of src/schemas.py (the document inserted into
the `"video"` collection). -/
structure Video where
  title : String
  description : Option String
  filename : String
  content_type : String
  size_bytes : Option Nat
deriving DecidableEq, Repr, Inhabited

/-- The `VideoOut` response model of src/main.py lines 78-87. -/
structure VideoOut where
  id : String
  title : String
  description : Option String
  filename : String
  url : String
  content_type : String
  size_bytes : Option Nat
  created_at : Option String
deriving DecidableEq, Repr, Inhabited

/-- A document as stored in the metadata collection: every field may be
absent (`d.get(...)` in `list_videos` returns `None` for a missing key).
`_id` and `created_at` are assigned by the store on insert. -/
structure StoredDoc where
  id : Option Nat
  title : Option String
  description : Option String
  filename : Option String
  content_type : Option String
  size_bytes : Option Nat
  created_at : Option StoredTime
deriving DecidableEq, Repr, Inhabited

/-- Environment-driven configuration: `os.getenv("PUBLIC_BACKEND_URL") or ""`
collapses an unset or empty variable to `""`. -/
structure Config where
  base_url : String
deriving DecidableEq, Repr, Inhabited

/-- The shared mutable world: the blob-store directory (filename to bytes,
bytes modelled as `List Nat`) and the metadata collection, plus the store's
id counter. -/
structure ServerState where
  blob : List (String × List Nat)
  docs : List StoredDoc
  nextId : Nat
deriving DecidableEq, Repr, Inhabited

/-- `open(file_path, "wb")` followed by a full write: creates the file or
truncates an existing one, leaving exactly `content` under `name`. -/
def blobWrite (bl : List (String × List Nat)) (name : String) (content : List Nat) :
    List (String × List Nat) :=
  (name, content) :: bl.filter (fun p => p.1 != name)

/-- `os.path.getsize(file_path)`: the byte length of the file currently on
disk under `name` (0 for a missing file). -/
def blobGetSize (bl : List (String × List Nat)) (name : String) : Nat :=
  ((bl.lookup name).getD []).length

/-- `str(d.get("_id"))`: Python renders a missing key's `None` as `"None"`. -/
def idRender : Option Nat → String
  | none => "None"
  | some n => toString n

/-- Modelled from the spec: `create_document` lives in `database.py`, which is
not under src/; per the spec the store inserts one document into the named
collection and assigns a unique id and a `created_at` timestamp, returning the
inserted id. -/
def create_document (st : ServerState) (v : Video) (now : Timestamp) :
    Nat × ServerState :=
  (st.nextId,
   { st with
     docs := st.docs ++ [{ id := some st.nextId, title := some v.title,
                           description := v.description,
                           filename := some v.filename,
                           content_type := some v.content_type,
                           size_bytes := v.size_bytes,
                           created_at := some (StoredTime.dt now) }],
     nextId := st.nextId + 1 })

/-- Modelled from the spec: `get_documents` lives in `database.py`, which is
not under src/; per the spec it is a bounded query returning up to `limit`
records of the collection. -/
def get_documents (docs : List StoredDoc) (limit : Nat) : List StoredDoc :=
  docs.take limit

/-- src/main.py lines 122-124 (inside `upload_video`):
`url = f"{base_url}{url_path}" if base_url else url_path`. -/
def uploadUrl (base fn : String) : String :=
  let url_path := "/uploads/" ++ fn
  if base == "" then url_path else base ++ url_path

/-- src/main.py lines 145-147 (inside `list_videos`): the same construction,
repeated there. -/
def listUrl (base fn : String) : String :=
  let url_path := "/uploads/" ++ fn
  if base == "" then url_path else base ++ url_path

/-- The multipart request accepted by `upload_video`: `title` (required),
`description` (optional), and the file part with its declared content type,
client-supplied original filename, and body bytes. -/
structure UploadRequest where
  title : String
  description : Option String
  filename : String
  content_type : String
  content : List Nat
deriving DecidableEq, Repr, Inhabited

/-- src/main.py lines 89-135, `upload_video`.  `tName` is the
`datetime.utcnow()` of line 101 (filename timestamp), `tStore` the store's
clock at insert, `tResp` the `datetime.utcnow()` of line 134 (response
`created_at`).  Returns the HTTP outcome (status code on error) and the
resulting server state; the 400 rejection happens before any side effect. -/
def upload_video (cfg : Config) (st : ServerState) (req : UploadRequest)
    (tName tStore tResp : Timestamp) : Except Nat VideoOut × ServerState :=
  if pyStartsWith req.content_type "video/" = false then
    (Except.error 400, st)
  else
    let fname := final_name req.filename tName
    let blob' := blobWrite st.blob fname req.content
    let size_bytes := blobGetSize blob' fname
    let video_doc : Video := { title := req.title, description := req.description,
                               filename := fname, content_type := req.content_type,
                               size_bytes := some size_bytes }
    let ins := create_document st video_doc tStore
    let st' := { ins.2 with blob := blob' }
    let url := uploadUrl cfg.base_url fname
    (Except.ok { id := toString ins.1, title := req.title,
                 description := req.description, filename := fname, url := url,
                 content_type := req.content_type, size_bytes := some size_bytes,
                 created_at := some (isoTimestamp tResp) },
     st')

/-- The per-document body of the loop in `list_videos` (src/main.py lines
142-159).  Constructing `VideoOut` with `filename=None` raises a Pydantic
validation error (the field is a required `str`), which surfaces as a 5xx. -/
def mapDoc (base : String) (d : StoredDoc) : Except String VideoOut :=
  match d.filename with
  | none => Except.error "ValidationError: filename must be a string"
  | some fn =>
    Except.ok { id := idRender d.id,
                title := (d.title).getD "Untitled",
                description := d.description,
                filename := fn,
                url := listUrl base fn,
                content_type := (d.content_type).getD "video/mp4",
                size_bytes := d.size_bytes,
                created_at := renderCreatedAt d.created_at }

/-- The loop of `list_videos`: documents are mapped in order and the first
validation failure aborts the whole request. -/
def mapDocs (base : String) : List StoredDoc → Except String (List VideoOut)
  | [] => Except.ok []
  | d :: ds =>
    match mapDoc base d with
    | Except.error e => Except.error e
    | Except.ok v =>
      match mapDocs base ds with
      | Except.error e => Except.error e
      | Except.ok vs => Except.ok (v :: vs)

/-- src/main.py lines 138-160, `list_videos`:
`docs = get_documents("video", ..., limit=100)` then the mapping loop. -/
def list_videos (cfg : Config) (st : ServerState) : Except String (List VideoOut) :=
  mapDocs cfg.base_url (get_documents st.docs 100)

/-- Checks a rendered URL for two adjacent slashes. -/
def hasDoubleSlash : List Char → Bool
  | [] => false
  | [_] => false
  | a :: b :: rest => (a == '/' && b == '/') || hasDoubleSlash (b :: rest)

/-- The safe-base formula in the claim's words: strip the extension from the
original filename, keep only alphanumerics and dash/underscore, truncate to
50 characters (no basename step). -/
def spec_safe_base (f : String) : List Char :=
  ((pySplitext f).1.filter isKeepChar).take 50

/-- The final path component, written independently of `splitLastSlash`:
scan the path left to right, restarting the accumulator at every `/`. -/
def basenameSpec (f : String) : List Char :=
  f.data.foldl (fun acc c => if c = '/' then [] else acc ++ [c]) []

/-- "Strip the extension", written independently of `splitLastDot`: when the
name still contains a dot after its leading dots, drop the suffix that
starts at the last dot (located by scanning the reversed name); otherwise
the name has no extension and is kept whole. -/
def stripExtSpec (name : List Char) : List Char :=
  let lead := name.takeWhile (fun c => c == '.')
  let rest := name.dropWhile (fun c => c == '.')
  if rest.contains '.' then
    lead ++ ((rest.reverse.dropWhile (fun c => c != '.')).drop 1).reverse
  else name

/-- The claim's safe-base formula as amended: first take the final path
component of the original filename, then strip the extension, filter to
alphanumerics and `-`/`_`, and truncate to 50 characters. -/
def spec_safe_base_amended (f : String) : List Char :=
  ((stripExtSpec (basenameSpec f)).filter isKeepChar).take 50

/-- Extract the descriptor from an upload outcome (dummy value on error). -/
def getOut (r : Except Nat VideoOut) : VideoOut :=
  match r with
  | Except.ok v => v
  | Except.error _ => default

/-- Whether an upload outcome is a success. -/
def isOkUpload (r : Except Nat VideoOut) : Bool :=
  match r with
  | Except.ok _ => true
  | Except.error _ => false

/-- The `VideoOut` a listed document maps to when its filename is present:
stored values passed through, `"Untitled"` / `"video/mp4"` substituted for an
absent title / content type, `created_at` rendered when present. -/
def defaultedOut (base : String) (d : StoredDoc) : VideoOut :=
  { id := idRender d.id,
    title := (d.title).getD "Untitled",
    description := d.description,
    filename := (d.filename).getD "",
    url := listUrl base ((d.filename).getD ""),
    content_type := (d.content_type).getD "video/mp4",
    size_bytes := d.size_bytes,
    created_at := renderCreatedAt d.created_at }

/- Concrete fixtures used by witnesses and counterexamples. -/

/-- Configuration with no `PUBLIC_BACKEND_URL`. -/
def cfg0 : Config := { base_url := "" }

/-- Configuration whose base URL ends in a slash. -/
def cfgSlash : Config := { base_url := "/api/" }

/-- An empty server state. -/
def st0 : ServerState := { blob := [], docs := [], nextId := 7 }

/-- A sample instant. -/
def tsA : Timestamp :=
  { year := 2024, month := 1, day := 2, hour := 3, minute := 4, second := 5,
    microsecond := 6 }

/-- A second instant in the same second as `tsA`, differing in microseconds. -/
def tsB : Timestamp :=
  { year := 2024, month := 1, day := 2, hour := 3, minute := 4, second := 5,
    microsecond := 999999 }

/-- The spec's worked example: title `"Trip"`, file `"My Vacation!!.mp4"`. -/
def reqTrip : UploadRequest :=
  { title := "Trip", description := none, filename := "My Vacation!!.mp4",
    content_type := "video/mp4", content := [10, 20, 30, 40] }

/-- A video upload whose original filename has an unusual extension. -/
def reqBang : UploadRequest :=
  { title := "T", description := none, filename := "a.b!c",
    content_type := "video/mp4", content := [1, 2, 3] }

/-- A non-video upload. -/
def reqText : UploadRequest :=
  { title := "T", description := none, filename := "doc.pdf",
    content_type := "text/plain", content := [1] }

/-- A video upload with an empty title. -/
def reqEmptyTitle : UploadRequest :=
  { title := "", description := some "d", filename := "v.mp4",
    content_type := "video/mp4", content := [5, 6] }

/-- A stored document with every optional field present. -/
def docFull : StoredDoc :=
  { id := some 3, title := some "A", description := some "da",
    filename := some "a_1.mp4", content_type := some "video/webm",
    size_bytes := some 9, created_at := some (StoredTime.dt tsA) }

/-- A stored document with only a filename (legacy record shape). -/
def docSparse : StoredDoc :=
  { id := none, title := none, description := none,
    filename := some "b_2.mp4", content_type := none,
    size_bytes := none, created_at := none }

/-- A stored document whose `created_at` holds a non-datetime value (no
`isoformat` attribute). -/
def docRaw : StoredDoc :=
  { id := some 5, title := some "C", description := none,
    filename := some "c_3.mp4", content_type := some "video/mp4",
    size_bytes := some 2, created_at := some (StoredTime.other "seven") }

/-- A stored document missing its filename. -/
def docNoName : StoredDoc :=
  { id := some 4, title := some "B", description := none,
    filename := none, content_type := some "video/mp4",
    size_bytes := some 1, created_at := none }

/-- Extract the list from a listing outcome (empty list on error). -/
def getList (r : Except String (List VideoOut)) : List VideoOut :=
  match r with
  | Except.ok vs => vs
  | Except.error _ => []

/-- The outcome of uploading the worked example into the empty state. -/
def upTrip : Except Nat VideoOut × ServerState :=
  upload_video cfg0 st0 reqTrip tsA tsA tsA

/-- The descriptor returned for the worked example. -/
def outTrip : VideoOut := getOut upTrip.1

/-- The server state after the worked example upload. -/
def stTrip : ServerState := upTrip.2

/-- The outcome of the same worked-example upload at `tsB`. -/
def upTripB : Except Nat VideoOut × ServerState :=
  upload_video cfg0 st0 reqTrip tsB tsB tsB

/-- The descriptor returned for the `tsB` upload. -/
def outTripB : VideoOut := getOut upTripB.1

/-- The server state after the `tsB` upload. -/
def stTripB : ServerState := upTripB.2

/-- A server state holding three well-formed metadata records, one with a
non-datetime `created_at`. -/
def stList : ServerState :=
  { blob := [], docs := [docFull, docSparse, docRaw], nextId := 9 }

/-- A server state holding a record that lacks its filename. -/
def stBad : ServerState := { blob := [], docs := [docFull, docNoName], nextId := 9 }

deriving instance DecidableEq for Except

/- Helper lemmas. -/

theorem padNum_length (w : Nat) : ∀ n : Nat, (padNum w n).length = w := by
  induction w with
  | zero => intro n; rfl
  | succ w ih => intro n; simp [padNum, ih]

theorem digitChar_inj_of_lt :
    ∀ a, a < 10 → ∀ b, b < 10 → Nat.digitChar a = Nat.digitChar b → a = b := by
  decide

theorem digitChar_isDigit_of_lt : ∀ a, a < 10 → (Nat.digitChar a).isDigit = true := by
  decide

theorem padNum_all_digit (w : Nat) : ∀ n : Nat, (padNum w n).all Char.isDigit = true := by
  induction w with
  | zero => intro n; rfl
  | succ w ih =>
    intro n
    simp [padNum, List.all_append, ih]
    exact digitChar_isDigit_of_lt (n % 10) (Nat.mod_lt n (by norm_num))

theorem padNum_inj (w : Nat) :
    ∀ n m : Nat, n < 10 ^ w → m < 10 ^ w → padNum w n = padNum w m → n = m := by
  induction w with
  | zero =>
    intro n m hn hm _
    simp [pow_zero] at hn hm
    omega
  | succ w ih =>
    intro n m hn hm h
    simp only [padNum] at h
    have hlen : (padNum w (n / 10)).length = (padNum w (m / 10)).length := by
      simp [padNum_length]
    obtain ⟨h1, h2⟩ := List.append_inj h hlen
    have hmod : n % 10 = m % 10 := by
      have := List.head_eq_of_cons_eq h2
      exact digitChar_inj_of_lt (n % 10) (Nat.mod_lt n (by norm_num)) (m % 10)
        (Nat.mod_lt m (by norm_num)) this
    have hdivn : n / 10 < 10 ^ w := by
      rw [Nat.div_lt_iff_lt_mul (by norm_num)]
      calc n < 10 ^ (w + 1) := hn
        _ = 10 ^ w * 10 := by rw [pow_succ]
    have hdivm : m / 10 < 10 ^ w := by
      rw [Nat.div_lt_iff_lt_mul (by norm_num)]
      calc m < 10 ^ (w + 1) := hm
        _ = 10 ^ w * 10 := by rw [pow_succ]
    have hdiv : n / 10 = m / 10 := ih (n / 10) (m / 10) hdivn hdivm h1
    omega

theorem mem_padNum_isDigit {c : Char} {w n : Nat} (h : c ∈ padNum w n) :
    c.isDigit = true := by
  have hall := padNum_all_digit w n
  rw [List.all_eq_true] at hall
  exact hall c h

theorem formatTimestamp_all_digit (t : Timestamp) :
    (formatTimestamp t).all Char.isDigit = true := by
  rw [List.all_eq_true]
  intro c hc
  simp only [formatTimestamp, List.mem_append] at hc
  rcases hc with ((((((h1 | h2) | h3) | h4) | h5) | h6) | h7) <;>
    exact mem_padNum_isDigit (by assumption)

theorem string_data_inj {a b : List Char} (h : String.mk a = String.mk b) : a = b := by
  injection h

theorem str_empty_append (s : String) : "" ++ s = s := by
  cases s
  rfl

theorem splitLastSlash_snd_of_no_slash :
    ∀ l : List Char, l.contains '/' = false → (splitLastSlash l).2 = l := by
  intro l
  induction l with
  | nil => intro _; rfl
  | cons c cs ih =>
    intro h
    simp only [List.contains_cons, Bool.or_eq_false_iff] at h
    have hcp : ¬c = '/' := by
      intro he
      rw [he] at h
      simp at h
    have hm : ('/' : Char) ∉ cs := by simpa using h.2
    simp [splitLastSlash, hm, hcp]

theorem foldl_basename (l : List Char) :
    ∀ acc : List Char,
      l.foldl (fun a c => if c = '/' then [] else a ++ [c]) acc =
        if l.contains '/' = true then (splitLastSlash l).2 else acc ++ l := by
  induction l with
  | nil => intro acc; simp
  | cons c cs ih =>
    intro acc
    simp only [List.foldl_cons]
    by_cases hc : c = '/'
    · rw [if_pos hc]
      subst hc
      rw [ih []]
      have hcc : (('/' : Char) :: cs).contains '/' = true := by simp
      rw [if_pos hcc]
      by_cases hcs : cs.contains '/' = true
      · rw [if_pos hcs]
        have hm : ('/' : Char) ∈ cs := by simpa using hcs
        simp [splitLastSlash, hm]
      · rw [if_neg hcs]
        have hm : ('/' : Char) ∉ cs := by simpa using Bool.eq_false_iff.mpr hcs
        simp [splitLastSlash, hm]
    · rw [if_neg hc]
      rw [ih (acc ++ [c])]
      by_cases hcs : cs.contains '/' = true
      · have hm : ('/' : Char) ∈ cs := by simpa using hcs
        have hcc : (c :: cs).contains '/' = true := by simp [hm]
        rw [if_pos hcs, if_pos hcc]
        simp [splitLastSlash, hm]
      · have hm : ('/' : Char) ∉ cs := by simpa using Bool.eq_false_iff.mpr hcs
        have hcc : ¬((c :: cs).contains '/' = true) := by
          intro hmem
          simp at hmem
          rcases hmem with he | hin
          · exact hc he.symm
          · exact hm hin
        rw [if_neg hcs, if_neg hcc]
        simp

theorem basenameSpec_eq (f : String) : basenameSpec f = pyBasename f := by
  unfold basenameSpec pyBasename
  rw [foldl_basename f.data []]
  by_cases h : f.data.contains '/' = true
  · rw [if_pos h]
  · rw [if_neg h]
    rw [splitLastSlash_snd_of_no_slash f.data (Bool.eq_false_iff.mpr h)]
    simp

theorem splitLastDot_fst :
    ∀ l : List Char,
      (splitLastDot l).map Prod.fst =
        if l.contains '.' = true
        then some (((l.reverse.dropWhile (fun c => c != '.')).drop 1).reverse)
        else none := by
  intro l
  induction l with
  | nil => simp [splitLastDot]
  | cons c cs ih =>
    cases hsd : splitLastDot cs with
    | some p =>
      rw [hsd] at ih
      by_cases hcs : cs.contains '.' = true
      case neg =>
        rw [if_neg hcs] at ih
        simp at ih
      rw [if_pos hcs] at ih
      simp only [Option.map_some'] at ih
      have hdot : ('.' : Char) ∈ cs := by
        have h' := hcs
        simpa using h'
      have hcc : (c :: cs).contains '.' = true := by simp [hdot]
      rw [show splitLastDot (c :: cs) = some (c :: p.1, p.2) from by
        simp [splitLastDot, hsd]]
      rw [if_pos hcc]
      simp only [List.reverse_cons]
      have hXne : cs.reverse.dropWhile (fun x => x != '.') ≠ [] := by
        rw [Ne, List.dropWhile_eq_nil_iff]
        push_neg
        exact ⟨'.', List.mem_reverse.mpr hdot, by simp⟩
      rw [List.dropWhile_append]
      rw [if_neg (by rw [List.isEmpty_iff]; exact hXne)]
      rw [List.drop_append_of_le_length (List.length_pos.mpr hXne)]
      simp at ih
      simp [ih]
    | none =>
      rw [hsd] at ih
      by_cases hcs : cs.contains '.' = true
      case pos =>
        rw [if_pos hcs] at ih
        simp at ih
      have hcsf : cs.contains '.' = false := Bool.eq_false_iff.mpr hcs
      have hnd : ('.' : Char) ∉ cs := by
        have h' := hcsf
        intro hm
        simp [hm] at h'
      by_cases hc : (c == '.') = true
      · have hceq : c = '.' := by simpa using hc
        subst hceq
        rw [show splitLastDot (('.' : Char) :: cs) = some ([], '.' :: cs) from by
          simp [splitLastDot, hsd]]
        have hcc : (('.' : Char) :: cs).contains '.' = true := by simp
        rw [if_pos hcc]
        simp only [List.reverse_cons]
        have hX0 : cs.reverse.dropWhile (fun x => x != '.') = [] := by
          rw [List.dropWhile_eq_nil_iff]
          intro x hx
          rw [bne_iff_ne]
          intro he
          exact hnd (he ▸ List.mem_reverse.mp hx)
        rw [List.dropWhile_append, hX0]
        simp [List.dropWhile]
      · have hcf : c ≠ '.' := by simpa using hc
        rw [show splitLastDot (c :: cs) = none from by simp [splitLastDot, hsd, hc]]
        have hnc : ¬((c :: cs).contains '.' = true) := by
          intro hmem
          simp at hmem
          rcases hmem with he | hin
          · exact hcf he.symm
          · exact hnd hin
        rw [if_neg hnc]
        rfl

theorem pySplitextName_fst (n : List Char) : (pySplitextName n).1 = stripExtSpec n := by
  have h := splitLastDot_fst (n.dropWhile (fun c => c == '.'))
  cases hsd : splitLastDot (n.dropWhile (fun c => c == '.')) with
  | some p =>
    rw [hsd] at h
    by_cases hcont : (n.dropWhile (fun c => c == '.')).contains '.' = true
    · rw [if_pos hcont] at h
      simp only [Option.map_some'] at h
      simp at h
      have hmem : ('.' : Char) ∈ n.dropWhile (fun c => c == '.') := by
        simpa using hcont
      simp [pySplitextName, stripExtSpec, hsd, hmem, h]
    · rw [if_neg hcont] at h
      simp at h
  | none =>
    rw [hsd] at h
    by_cases hcont : (n.dropWhile (fun c => c == '.')).contains '.' = true
    · rw [if_pos hcont] at h
      simp at h
    · have hni : ('.' : Char) ∉ n.dropWhile (fun c => c == '.') := by
        simpa using Bool.eq_false_iff.mpr hcont
      simp [pySplitextName, stripExtSpec, hsd, hni]

theorem safe_base_eq_spec (f : String) : safe_base f = spec_safe_base_amended f := by
  unfold safe_base spec_safe_base_amended base_name
  rw [basenameSpec_eq, pySplitextName_fst]

theorem upload_video_accept (cfg : Config) (st : ServerState) (req : UploadRequest)
    (tN tS tR : Timestamp) (h : pyStartsWith req.content_type "video/" = true) :
    upload_video cfg st req tN tS tR =
      (Except.ok { id := toString st.nextId, title := req.title,
                   description := req.description,
                   filename := final_name req.filename tN,
                   url := uploadUrl cfg.base_url (final_name req.filename tN),
                   content_type := req.content_type,
                   size_bytes := some req.content.length,
                   created_at := some (isoTimestamp tR) },
       { blob := blobWrite st.blob (final_name req.filename tN) req.content,
         docs := st.docs ++ [{ id := some st.nextId, title := some req.title,
                               description := req.description,
                               filename := some (final_name req.filename tN),
                               content_type := some req.content_type,
                               size_bytes := some req.content.length,
                               created_at := some (StoredTime.dt tS) }],
         nextId := st.nextId + 1 }) := by
  have hsize :
      blobGetSize (blobWrite st.blob (final_name req.filename tN) req.content)
        (final_name req.filename tN) = req.content.length := by
    simp [blobGetSize, blobWrite, List.lookup]
  simp [upload_video, h, create_document, hsize]

theorem mapDocs_ok_length (base : String) :
    ∀ ds : List StoredDoc, ∀ vs : List VideoOut,
      mapDocs base ds = Except.ok vs → vs.length = ds.length := by
  intro ds
  induction ds with
  | nil =>
    intro vs h
    simp [mapDocs] at h
    simp [← h]
  | cons d tl ih =>
    intro vs h
    simp only [mapDocs] at h
    cases hd : mapDoc base d with
    | error e => rw [hd] at h; exact absurd h (by simp)
    | ok v =>
      rw [hd] at h
      cases ht : mapDocs base tl with
      | error e => rw [ht] at h; exact absurd h (by simp)
      | ok vs' =>
        rw [ht] at h
        simp at h
        subst h
        simp [ih vs' ht]

theorem mapDocs_ok_mem (base : String) (d : StoredDoc) (v : VideoOut) :
    ∀ ds : List StoredDoc, ∀ vs : List VideoOut,
      mapDocs base ds = Except.ok vs → d ∈ ds → mapDoc base d = Except.ok v →
        v ∈ vs := by
  intro ds
  induction ds with
  | nil => intro vs _ hmem; exact absurd hmem (by simp)
  | cons e tl ih =>
    intro vs h hmem hv
    simp only [mapDocs] at h
    cases hd : mapDoc base e with
    | error err => rw [hd] at h; exact absurd h (by simp)
    | ok w =>
      rw [hd] at h
      cases ht : mapDocs base tl with
      | error err => rw [ht] at h; exact absurd h (by simp)
      | ok ws =>
        rw [ht] at h
        simp at h
        subst h
        rcases List.mem_cons.mp hmem with hde | htl
        · subst hde
          rw [hv] at hd
          simp at hd
          simp [hd]
        · exact List.mem_cons_of_mem w (ih ws ht htl hv)

theorem mapDocs_ok_of_all (base : String) :
    ∀ ds : List StoredDoc,
      (∀ d ∈ ds, (d.filename).isSome = true) →
        mapDocs base ds = Except.ok (ds.map (defaultedOut base)) := by
  intro ds
  induction ds with
  | nil => intro _; rfl
  | cons d tl ih =>
    intro hall
    have hd : (d.filename).isSome = true := hall d (by simp)
    obtain ⟨fn, hfn⟩ := Option.isSome_iff_exists.mp hd
    have htl : mapDocs base tl = Except.ok (tl.map (defaultedOut base)) :=
      ih (fun e he => hall e (List.mem_cons_of_mem d he))
    simp only [mapDocs, mapDoc, hfn, htl, List.map_cons]
    simp [defaultedOut, hfn]

theorem mapDocs_error_of_missing (base : String) :
    ∀ ds : List StoredDoc, ∀ d ∈ ds, d.filename = none →
      ∃ e, mapDocs base ds = Except.error e := by
  intro ds
  induction ds with
  | nil => intro d hmem; exact absurd hmem (by simp)
  | cons e tl ih =>
    intro d hmem hnone
    rcases List.mem_cons.mp hmem with hde | htl
    · subst hde
      refine ⟨"ValidationError: filename must be a string", ?_⟩
      simp [mapDocs, mapDoc, hnone]
    · cases hd : mapDoc base e with
      | error err => exact ⟨err, by simp [mapDocs, hd]⟩
      | ok v =>
        obtain ⟨err, herr⟩ := ih d htl hnone
        exact ⟨err, by simp [mapDocs, hd, herr]⟩

/- Claim theorems. -/

/-- C1: for every upload request whose declared content type does not start
with `video/`, `upload_video` returns the 400 client error and performs no
side effect — the returned server state (blob store and metadata collection)
is exactly the input state. -/
theorem C1_reject_non_video (cfg : Config) (st : ServerState) (req : UploadRequest)
    (tN tS tR : Timestamp) (h : pyStartsWith req.content_type "video/" = false) :
    upload_video cfg st req tN tS tR = (Except.error 400, st) := by
  simp [upload_video, h]

/-- C1 witness: a `text/plain` upload is rejected with 400 and the empty
state is returned unchanged. -/
theorem C1_reject_non_video_witness :
    pyStartsWith reqText.content_type "video/" = false ∧
    upload_video cfg0 st0 reqText tsA tsA tsA = (Except.error 400, st0) :=
  ⟨by decide, C1_reject_non_video cfg0 st0 reqText tsA tsA tsA (by decide)⟩

/-- C2 counterexample: the accepted upload of a file named `"a.b!c"` stores a
filename that is not made of alphanumerics, `-`, `_` only — the reattached
extension `.b!c` is carried over verbatim. -/
theorem C2_unsafe_extension_counterexample :
    isOkUpload (upload_video cfg0 st0 reqBang tsA tsA tsA).1 = true ∧
    (getOut (upload_video cfg0 st0 reqBang tsA tsA tsA).1).filename.data.all
      isKeepChar = false := by
  decide

/-- C2 (amended): for every accepted upload, the part of the stored filename
that precedes the reattached extension — the safe base (or the `"video"`
default), the separating underscore, and the timestamp — consists only of
alphanumerics, `-`, `_`, with the safe base capped at 50 characters; the
original extension is then appended verbatim and is not sanitised. -/
theorem C2_amended_safe_before_extension (f : String) (t : Timestamp) :
    (((if (safe_base f).isEmpty then ("video" : String).data else safe_base f) ++
        ('_' :: formatTimestamp t)).all isKeepChar) = true
    ∧ (safe_base f).length ≤ 50
    ∧ final_name_list f t =
        ((if (safe_base f).isEmpty then ("video" : String).data else safe_base f) ++
          ('_' :: formatTimestamp t)) ++ extPart f := by
  refine ⟨?_, ?_, rfl⟩
  · rw [List.all_eq_true]
    intro c hc
    rw [List.mem_append] at hc
    rcases hc with hb | hts
    · by_cases he : (safe_base f).isEmpty
      · rw [if_pos he] at hb
        fin_cases hb <;> decide
      · rw [if_neg he] at hb
        exact List.of_mem_filter (List.take_subset 50 _ hb)
    · rcases List.mem_cons.mp hts with hu | hts'
      · subst hu
        decide
      · have hdig : c.isDigit = true := by
          simp only [formatTimestamp, List.mem_append] at hts'
          rcases hts' with ((((((h1 | h2) | h3) | h4) | h5) | h6) | h7) <;>
            exact mem_padNum_isDigit (by assumption)
        simp [isKeepChar, pyIsAlnum, hdig]
  · simp only [safe_base, List.length_take]
    omega

/-- C3: for every accepted upload, both the `size_bytes` in the returned
descriptor and the `size_bytes` of the metadata record just inserted equal
the byte length of the file actually present in the blob store under the
stored filename. -/
theorem C3_size_from_bytes_written (cfg : Config) (st : ServerState)
    (req : UploadRequest) (tN tS tR : Timestamp) (out : VideoOut) (st' : ServerState)
    (h : upload_video cfg st req tN tS tR = (Except.ok out, st')) :
    out.size_bytes = some (blobGetSize st'.blob out.filename) ∧
    (st'.docs.getLast?).map StoredDoc.size_bytes = some out.size_bytes := by
  cases hct : pyStartsWith req.content_type "video/" with
  | false =>
    rw [upload_video] at h
    simp [hct] at h
  | true =>
    rw [upload_video_accept cfg st req tN tS tR hct] at h
    have h1 := congrArg Prod.fst h
    have h2 := congrArg Prod.snd h
    simp only at h1 h2
    injection h1 with h1
    subst h1
    subst h2
    constructor
    · simp [blobGetSize, blobWrite, List.lookup]
    · simp [List.getLast?_concat]

/-- C3 witness: the worked example upload; its descriptor size and stored
record size both equal the 4 bytes on disk. -/
theorem C3_size_from_bytes_written_witness :
    outTrip.size_bytes = some (blobGetSize stTrip.blob outTrip.filename) ∧
    (stTrip.docs.getLast?).map StoredDoc.size_bytes = some outTrip.size_bytes :=
  C3_size_from_bytes_written cfg0 st0 reqTrip tsA tsA tsA outTrip stTrip (by decide)

/-- C4 counterexample: with the configured base URL `"/api/"` (ending in a
slash) the accepted upload returns a url containing a double slash, so the
claim's "no double slashes for every base-URL configuration" fails. -/
theorem C4_double_slash_counterexample :
    isOkUpload (upload_video cfgSlash st0 reqTrip tsA tsA tsA).1 = true ∧
    hasDoubleSlash (getOut (upload_video cfgSlash st0 reqTrip tsA tsA tsA).1).url.data
      = true := by
  decide

/-- C4 (amended): for every filename and base-URL configuration the url is
exactly the concatenation `base ++ "/uploads/" ++ filename` — root-relative
`"/uploads/" ++ filename` when no base URL is configured — and the upload
handler and listing handler build identical urls for the same filename and
configuration; no separator is ever missing, but a configured base ending in
`/` produces a double slash at the join. -/
theorem C4_amended_url_exact (b f : String) :
    uploadUrl b f = b ++ "/uploads/" ++ f
    ∧ listUrl b f = uploadUrl b f
    ∧ uploadUrl "" f = "/uploads/" ++ f := by
  refine ⟨?_, rfl, rfl⟩
  by_cases hb : b = ""
  · subst hb
    show "/uploads/" ++ f = "" ++ "/uploads/" ++ f
    rw [str_empty_append "/uploads/"]
  · simp [uploadUrl, hb, String.append_assoc]

/-- C5 counterexample: two sequential accepted uploads of the same file and
title whose `datetime.utcnow()` readings coincide (the same microsecond
within the same second — nothing in the code prevents this) return the
identical stored filename; the second write overwrites the first file, so
after both uploads the blob store holds one file while the metadata store
holds two records. -/
theorem C5_same_microsecond_collision_counterexample :
    isOkUpload (upload_video cfg0 st0 reqTrip tsA tsA tsA).1 = true ∧
    isOkUpload (upload_video cfg0 stTrip reqTrip tsA tsA tsA).1 = true ∧
    (getOut (upload_video cfg0 st0 reqTrip tsA tsA tsA).1).filename =
      (getOut (upload_video cfg0 stTrip reqTrip tsA tsA tsA).1).filename ∧
    (upload_video cfg0 stTrip reqTrip tsA tsA tsA).2.blob.length = 1 ∧
    (upload_video cfg0 stTrip reqTrip tsA tsA tsA).2.docs.length = 2 := by
  decide

/-- C5 (amended): two accepted uploads sharing the same original filename and
title, occurring within the same second, return distinct stored filenames
whenever their `datetime.utcnow()` readings differ in the microsecond field
— uniqueness by the `%f` timestamp suffix, with no locking involved;
coinciding readings collide. -/
theorem C5_same_second_distinct_names (cfg : Config) (st1 st2 : ServerState)
    (req : UploadRequest) (t t' tS tR tS' tR' : Timestamp)
    (r1 r2 : VideoOut) (s1 s2 : ServerState)
    (h1 : upload_video cfg st1 req t tS tR = (Except.ok r1, s1))
    (h2 : upload_video cfg st2 req t' tS' tR' = (Except.ok r2, s2))
    (hy : t.year = t'.year) (hmo : t.month = t'.month) (hd : t.day = t'.day)
    (hh : t.hour = t'.hour) (hmi : t.minute = t'.minute) (hs : t.second = t'.second)
    (hb : t.microsecond < 1000000) (hb' : t'.microsecond < 1000000)
    (hne : t.microsecond ≠ t'.microsecond) :
    r1.filename ≠ r2.filename := by
  cases hct : pyStartsWith req.content_type "video/" with
  | false =>
    rw [upload_video] at h1
    simp [hct] at h1
  | true =>
    rw [upload_video_accept cfg st1 req t tS tR hct] at h1
    rw [upload_video_accept cfg st2 req t' tS' tR' hct] at h2
    have e1 := congrArg Prod.fst h1
    have e2 := congrArg Prod.fst h2
    simp only at e1 e2
    injection e1 with e1
    injection e2 with e2
    rw [← e1, ← e2]
    simp only [final_name]
    intro heq
    apply hne
    have hlist : final_name_list req.filename t = final_name_list req.filename t' :=
      string_data_inj heq
    unfold final_name_list at hlist
    have hmid := List.append_cancel_left (List.append_cancel_right hlist)
    have hfmt : formatTimestamp t = formatTimestamp t' := by
      simpa using hmid
    unfold formatTimestamp at hfmt
    rw [hy, hmo, hd, hh, hmi, hs] at hfmt
    have hpad := List.append_cancel_left hfmt
    have h6 : (10 : Nat) ^ 6 = 1000000 := by norm_num
    exact padNum_inj 6 t.microsecond t'.microsecond (h6 ▸ hb) (h6 ▸ hb') hpad

/-- C5 witness: the worked example uploaded twice in the same second, at
microseconds 6 and 999999, yields two distinct stored filenames. -/
theorem C5_same_second_distinct_names_witness :
    outTrip.filename ≠ outTripB.filename :=
  C5_same_second_distinct_names cfg0 st0 st0 reqTrip tsA tsB tsA tsA tsB tsB
    outTrip outTripB stTrip stTripB (by decide) (by decide)
    (by decide) (by decide) (by decide) (by decide) (by decide) (by decide)
    (by decide) (by decide) (by decide)

theorem round_trip_core (base : String) (docs : List StoredDoc) (d : StoredDoc)
    (vs : List VideoOut) (fn : String)
    (hl : mapDocs base docs = Except.ok vs) (hmem : d ∈ docs)
    (hfn : d.filename = some fn) :
    ∃ v ∈ vs, v.id = idRender d.id ∧ v.filename = fn ∧
      v.content_type = (d.content_type).getD "video/mp4" ∧
      v.size_bytes = d.size_bytes := by
  refine ⟨defaultedOut base d,
    mapDocs_ok_mem base d (defaultedOut base d) docs vs hl hmem ?_, rfl, ?_, rfl, rfl⟩
  · simp [mapDoc, defaultedOut, hfn]
  · simp [defaultedOut, hfn]

/-- C6 counterexample: the claim's formula (strip extension, filter, truncate
— with no basename step) disagrees with the code's derived safe base on the
original filename `"a/b.mp4"`: the code derives `"b"`, the formula `"ab"`. -/
theorem C6_basename_counterexample :
    safe_base "a/b.mp4" ≠ spec_safe_base "a/b.mp4" := by
  decide

/-- C6 (amended): for every accepted upload, the stored filename decomposes
as the amended safe base — final path component of the original filename,
extension stripped, filtered to alphanumerics and `-`/`_`, truncated to 50
characters, with `"video"` substituted when empty — followed by an
underscore, the all-digit timestamp, and the original extension; in
particular `"My Vacation!!.mp4"` yields `MyVacation_<digits>.mp4` and the
all-punctuation name `"!!!.mp4"` falls back to `video_<digits>.mp4`. -/
theorem C6_amended_base_derivation (cfg : Config) (st : ServerState)
    (req : UploadRequest) (tN tS tR : Timestamp) (out : VideoOut) (st' : ServerState)
    (h : upload_video cfg st req tN tS tR = (Except.ok out, st')) :
    out.filename.data =
      (if (spec_safe_base_amended req.filename).isEmpty then ("video" : String).data
       else spec_safe_base_amended req.filename) ++
        ('_' :: formatTimestamp tN) ++ extPart req.filename
    ∧ final_name_list "My Vacation!!.mp4" tN =
        ("MyVacation" : String).data ++ ('_' :: formatTimestamp tN) ++
          (".mp4" : String).data
    ∧ (formatTimestamp tN).all Char.isDigit = true
    ∧ final_name_list "!!!.mp4" tN =
        ("video" : String).data ++ ('_' :: formatTimestamp tN) ++
          (".mp4" : String).data := by
  refine ⟨?_, ?_, formatTimestamp_all_digit tN, ?_⟩
  · cases hct : pyStartsWith req.content_type "video/" with
    | false =>
      rw [upload_video] at h
      simp [hct] at h
    | true =>
      rw [upload_video_accept cfg st req tN tS tR hct] at h
      have e1 := congrArg Prod.fst h
      simp only at e1
      injection e1 with e1
      rw [← e1, ← safe_base_eq_spec]
      rfl
  · have h1 : safe_base "My Vacation!!.mp4" = ("MyVacation" : String).data := by decide
    have h3 : extPart "My Vacation!!.mp4" = (".mp4" : String).data := by decide
    rw [final_name_list, h1, h3]
    rfl
  · have h5 : (safe_base "!!!.mp4").isEmpty = true := by decide
    have h6 : extPart "!!!.mp4" = (".mp4" : String).data := by decide
    rw [final_name_list, h5, h6]
    simp

/-- C6 witness: the worked example upload, checked against the amended
formula. -/
theorem C6_amended_base_derivation_witness :
    outTrip.filename.data =
      (if (spec_safe_base_amended reqTrip.filename).isEmpty then ("video" : String).data
       else spec_safe_base_amended reqTrip.filename) ++
        ('_' :: formatTimestamp tsA) ++ extPart reqTrip.filename
    ∧ final_name_list "My Vacation!!.mp4" tsA =
        ("MyVacation" : String).data ++ ('_' :: formatTimestamp tsA) ++
          (".mp4" : String).data
    ∧ (formatTimestamp tsA).all Char.isDigit = true
    ∧ final_name_list "!!!.mp4" tsA =
        ("video" : String).data ++ ('_' :: formatTimestamp tsA) ++
          (".mp4" : String).data :=
  C6_amended_base_derivation cfg0 st0 reqTrip tsA tsA tsA outTrip stTrip (by decide)

/-- C7: whatever the metadata store holds, a successful listing returns at
most 100 descriptors — the store query is bounded by limit 100. -/
theorem C7_listing_capped (cfg : Config) (st : ServerState) (vs : List VideoOut)
    (h : list_videos cfg st = Except.ok vs) : vs.length ≤ 100 := by
  unfold list_videos get_documents at h
  rw [mapDocs_ok_length cfg.base_url (st.docs.take 100) vs h]
  simp [List.length_take]

/-- C7 witness: listing a two-record store returns at most 100 descriptors. -/
theorem C7_listing_capped_witness :
    (getList (list_videos cfg0 stList)).length ≤ 100 :=
  C7_listing_capped cfg0 stList (getList (list_videos cfg0 stList)) (by decide)

/-- C8: round-trip — when an accepted upload's record is retrieved through a
successful listing (the store held fewer than 100 records beforehand, so the
new record falls within the query window), some listed descriptor agrees
with the upload's returned descriptor on id, filename, content_type and
size_bytes. -/
theorem C8_round_trip (cfg : Config) (st : ServerState) (req : UploadRequest)
    (tN tS tR : Timestamp) (out : VideoOut) (st' : ServerState) (vs : List VideoOut)
    (hlen : st.docs.length < 100)
    (h : upload_video cfg st req tN tS tR = (Except.ok out, st'))
    (hl : list_videos cfg st' = Except.ok vs) :
    ∃ v ∈ vs, v.id = out.id ∧ v.filename = out.filename ∧
      v.content_type = out.content_type ∧ v.size_bytes = out.size_bytes := by
  cases hct : pyStartsWith req.content_type "video/" with
  | false =>
    rw [upload_video] at h
    simp [hct] at h
  | true =>
    rw [upload_video_accept cfg st req tN tS tR hct] at h
    have e1 := congrArg Prod.fst h
    have e2 := congrArg Prod.snd h
    simp only at e1 e2
    injection e1 with e1
    rw [← e2] at hl
    unfold list_videos get_documents at hl
    simp only at hl
    rw [List.take_of_length_le (by simp; omega)] at hl
    obtain ⟨v, hv, hid, hfn, hctv, hsz⟩ :=
      round_trip_core cfg.base_url
        (st.docs ++ [{ id := some st.nextId, title := some req.title,
                       description := req.description,
                       filename := some (final_name req.filename tN),
                       content_type := some req.content_type,
                       size_bytes := some req.content.length,
                       created_at := some (StoredTime.dt tS) }])
        { id := some st.nextId, title := some req.title,
          description := req.description,
          filename := some (final_name req.filename tN),
          content_type := some req.content_type,
          size_bytes := some req.content.length,
          created_at := some (StoredTime.dt tS) }
        vs (final_name req.filename tN) hl (by simp) rfl
    exact ⟨v, hv, by rw [hid, ← e1]; rfl, by rw [hfn, ← e1],
      by rw [hctv, ← e1]; rfl, by rw [hsz, ← e1]⟩

/-- C8 witness: the worked example uploaded into the empty store and then
listed; the listed descriptor matches on the four fields. -/
theorem C8_round_trip_witness :
    ∃ v ∈ getList (list_videos cfg0 stTrip), v.id = outTrip.id ∧
      v.filename = outTrip.filename ∧ v.content_type = outTrip.content_type ∧
      v.size_bytes = outTrip.size_bytes :=
  C8_round_trip cfg0 st0 reqTrip tsA tsA tsA outTrip stTrip
    (getList (list_videos cfg0 stTrip)) (by decide) (by decide) (by decide)

/-- C9 counterexample: an upload whose title is the empty string and whose
content type is `video/mp4` is accepted, and the persisted record carries
the empty title — refuting "no VideoRecord with an empty title is ever
persisted". -/
theorem C9_empty_title_accepted_counterexample :
    isOkUpload (upload_video cfg0 st0 reqEmptyTitle tsA tsA tsA).1 = true ∧
    ((upload_video cfg0 st0 reqEmptyTitle tsA tsA tsA).2.docs.getLast?).map
      StoredDoc.title = some (some "") := by
  decide

/-- C9 (amended): the title part is required to be present in the multipart
form, but nothing enforces non-emptiness — every upload with an empty-string
title and a `video/` content type is accepted, returns the empty title, and
persists a record with the empty title. -/
theorem C9_amended_empty_title_persisted (cfg : Config) (st : ServerState)
    (req : UploadRequest) (tN tS tR : Timestamp)
    (ht : req.title = "") (hct : pyStartsWith req.content_type "video/" = true) :
    isOkUpload (upload_video cfg st req tN tS tR).1 = true ∧
    (getOut (upload_video cfg st req tN tS tR).1).title = "" ∧
    ((upload_video cfg st req tN tS tR).2.docs.getLast?).map StoredDoc.title
      = some (some "") := by
  rw [upload_video_accept cfg st req tN tS tR hct]
  simp [isOkUpload, getOut, ht, List.getLast?_concat]

/-- C9 witness: the concrete empty-title upload, through the amended
theorem. -/
theorem C9_amended_empty_title_persisted_witness :
    isOkUpload (upload_video cfg0 st0 reqEmptyTitle tsA tsA tsA).1 = true ∧
    (getOut (upload_video cfg0 st0 reqEmptyTitle tsA tsA tsA).1).title = "" ∧
    ((upload_video cfg0 st0 reqEmptyTitle tsA tsA tsA).2.docs.getLast?).map
      StoredDoc.title = some (some "") :=
  C9_amended_empty_title_persisted cfg0 st0 reqEmptyTitle tsA tsA tsA
    (by decide) (by decide)

/-- C10: the listing handler tolerates records with an absent title,
content_type, size_bytes, description or created_at — substituting
`"Untitled"`, `"video/mp4"`, `none`, `none` and omission respectively — and
a record whose `created_at` is present but not renderable (no `isoformat`)
also has it omitted; but a record within the query window whose filename is
absent makes the whole listing fail with an error instead of producing
descriptors. -/
theorem C10_listing_defaults (cfg : Config) (st : ServerState) :
    ((∀ d ∈ get_documents st.docs 100, (d.filename).isSome = true) →
      list_videos cfg st =
        Except.ok ((get_documents st.docs 100).map (defaultedOut cfg.base_url)))
    ∧ (∀ d ∈ get_documents st.docs 100, d.filename = none →
        ∃ e, list_videos cfg st = Except.error e)
    ∧ (∀ d ∈ get_documents st.docs 100, (d.filename).isSome = true →
        ∀ s, d.created_at = some (StoredTime.other s) →
          ∃ v, mapDoc cfg.base_url d = Except.ok v ∧ v.created_at = none) := by
  refine ⟨?_, ?_, ?_⟩
  · intro hall
    unfold list_videos
    exact mapDocs_ok_of_all cfg.base_url (get_documents st.docs 100) hall
  · intro d hmem hnone
    unfold list_videos
    exact mapDocs_error_of_missing cfg.base_url (get_documents st.docs 100) d hmem hnone
  · intro d _ hfn s hca
    obtain ⟨fn, hfn'⟩ := Option.isSome_iff_exists.mp hfn
    refine ⟨defaultedOut cfg.base_url d, ?_, ?_⟩
    · simp [mapDoc, defaultedOut, hfn']
    · simp [defaultedOut, renderCreatedAt, hca]

/-- C10 witness: a store of one full, one sparse and one
non-datetime-created_at record lists with the defaults substituted; the
non-renderable created_at is omitted; a store containing a filename-less
record fails. -/
theorem C10_listing_defaults_witness :
    (list_videos cfg0 stList =
      Except.ok ((get_documents stList.docs 100).map (defaultedOut cfg0.base_url)))
    ∧ (∃ e, list_videos cfg0 stBad = Except.error e)
    ∧ (∃ v, mapDoc cfg0.base_url docRaw = Except.ok v ∧ v.created_at = none) :=
  ⟨(C10_listing_defaults cfg0 stList).1 (by decide),
   (C10_listing_defaults cfg0 stBad).2.1 docNoName (by decide) (by decide),
   (C10_listing_defaults cfg0 stList).2.2 docRaw (by decide) (by decide) "seven"
     (by decide)⟩

end VideoBackend
